import Mathlib

/-!
Verification of the staged symbolic tensor-calculus pipeline of the
`general_relativity` repository (files `tensor_calculator_gui.py` and
`tono_gui.py`, method `EinsteinCalculatorApp.perform_calculation`).

The symbolic-algebra collaborator (sympy) is modelled by a deep embedding
`Expr` of symbolic expressions over rational constants and symbols, with
structural differentiation `deriv` and a semantics-preserving constant-folding
normalizer `simplifyE` standing in for the collaborator's `simplify`/`cancel`
(the spec assumes the collaborator is correct: simplification preserves the
denoted value, and exact equality after simplification implies mathematical
equality).  `evalE` gives the denotation of an expression under a valuation of
the symbols.
-/

namespace GRCalc

/-- Exact rational constants in a computation-friendly form: a numerator and a
positive denominator, not necessarily reduced (two representations denote the
same rational when they cross-multiply equally; `toRat` gives the denoted
rational). -/
structure Frac where
  num : ℤ
  den : ℕ+
  deriving DecidableEq, Repr

/-- The rational a `Frac` denotes. -/
def Frac.toRat (f : Frac) : ℚ := (f.num : ℚ) / ((f.den : ℕ) : ℚ)

/-- Zero. -/
def fZero : Frac := ⟨0, 1⟩

/-- One. -/
def fOne : Frac := ⟨1, 1⟩

/-- One half (`sp.Rational(1, 2)`). -/
def fHalf : Frac := ⟨1, 2⟩

/-- An integer constant. -/
def fInt (n : ℤ) : Frac := ⟨n, 1⟩

/-- Exact addition. -/
def fadd (a b : Frac) : Frac :=
  ⟨a.num * ((b.den : ℕ) : ℤ) + b.num * ((a.den : ℕ) : ℤ), a.den * b.den⟩

/-- Exact subtraction. -/
def fsub (a b : Frac) : Frac :=
  ⟨a.num * ((b.den : ℕ) : ℤ) - b.num * ((a.den : ℕ) : ℤ), a.den * b.den⟩

/-- Exact multiplication. -/
def fmul (a b : Frac) : Frac := ⟨a.num * b.num, a.den * b.den⟩

/-- Exact negation. -/
def fneg (a : Frac) : Frac := ⟨-a.num, a.den⟩

theorem den_cast_ne_zero (a : Frac) : (((a.den : ℕ) : ℚ)) ≠ 0 :=
  (Nat.cast_pos.mpr a.den.pos).ne'

theorem toRat_fadd (a b : Frac) : (fadd a b).toRat = a.toRat + b.toRat := by
  have ha := den_cast_ne_zero a
  have hb := den_cast_ne_zero b
  simp only [Frac.toRat, fadd]
  push_cast
  field_simp

theorem toRat_fsub (a b : Frac) : (fsub a b).toRat = a.toRat - b.toRat := by
  have ha := den_cast_ne_zero a
  have hb := den_cast_ne_zero b
  simp only [Frac.toRat, fsub]
  push_cast
  field_simp
  ring

theorem toRat_fmul (a b : Frac) : (fmul a b).toRat = a.toRat * b.toRat := by
  have ha := den_cast_ne_zero a
  have hb := den_cast_ne_zero b
  simp only [Frac.toRat, fmul]
  push_cast
  field_simp

theorem toRat_fneg (a : Frac) : (fneg a).toRat = -a.toRat := by
  simp only [Frac.toRat, fneg]
  push_cast
  ring

theorem toRat_fZero : fZero.toRat = 0 := by simp [Frac.toRat, fZero]

theorem toRat_fOne : fOne.toRat = 1 := by simp [Frac.toRat, fOne]

theorem toRat_fHalf : fHalf.toRat = 1 / 2 := by
  simp [Frac.toRat, fHalf]

theorem toRat_fInt (n : ℤ) : (fInt n).toRat = (n : ℚ) := by simp [Frac.toRat, fInt]

/-- Deep embedding of the symbolic expressions the pipeline manipulates:
rational constants, symbols (indexed by natural numbers), and the arithmetic
operations used by the metric definitions and the tensor formulas. -/
inductive Expr where
  | const (q : Frac)
  | var (i : ℕ)
  | add (a b : Expr)
  | sub (a b : Expr)
  | mul (a b : Expr)
  | neg (a : Expr)
  | div (a b : Expr)
  deriving DecidableEq, Repr

/-- Structural partial differentiation with respect to symbol `j`; models the
collaborator's `sp.diff` on the expression language. -/
def deriv : Expr → ℕ → Expr
  | .const _, _ => .const fZero
  | .var i, j => .const (if i = j then fOne else fZero)
  | .add a b, j => .add (deriv a j) (deriv b j)
  | .sub a b, j => .sub (deriv a j) (deriv b j)
  | .mul a b, j => .add (.mul (deriv a j) b) (.mul a (deriv b j))
  | .neg a, j => .neg (deriv a j)
  | .div a b, j => .div (.sub (.mul (deriv a j) b) (.mul a (deriv b j))) (.mul b b)

/-- Denotation of an expression under a valuation of the symbols.  Division is
rational-number division (with the usual junk value at a zero denominator). -/
def evalE (v : ℕ → ℚ) : Expr → ℚ
  | .const q => q.toRat
  | .var i => v i
  | .add a b => evalE v a + evalE v b
  | .sub a b => evalE v a - evalE v b
  | .mul a b => evalE v a * evalE v b
  | .neg a => -evalE v a
  | .div a b => evalE v a / evalE v b

/-- Smart addition used by the normalizer: drops zeros, folds constants. -/
def mkAdd (a b : Expr) : Expr :=
  if a = .const fZero then b
  else if b = .const fZero then a
  else match a, b with
    | .const p, .const q => .const (fadd p q)
    | a, b => .add a b

/-- Smart subtraction used by the normalizer. -/
def mkSub (a b : Expr) : Expr :=
  if b = .const fZero then a
  else match a, b with
    | .const p, .const q => .const (fsub p q)
    | a, b => .sub a b

/-- Smart multiplication used by the normalizer: absorbs zeros, drops unit
factors, folds constants. -/
def mkMul (a b : Expr) : Expr :=
  if a = .const fZero then .const fZero
  else if b = .const fZero then .const fZero
  else if a = .const fOne then b
  else if b = .const fOne then a
  else match a, b with
    | .const p, .const q => .const (fmul p q)
    | a, b => .mul a b

/-- Smart negation used by the normalizer. -/
def mkNeg (a : Expr) : Expr :=
  match a with
  | .const p => .const (fneg p)
  | a => .neg a

/-- Smart division used by the normalizer: drops unit denominators. -/
def mkDiv (a b : Expr) : Expr :=
  if b = .const fOne then a else .div a b

/-- Bottom-up constant-folding normalizer; the model of the collaborator's
`sp.simplify`.  It is semantics-preserving (`eval_simplifyE`). -/
def simplifyE : Expr → Expr
  | .const q => .const q
  | .var i => .var i
  | .add a b => mkAdd (simplifyE a) (simplifyE b)
  | .sub a b => mkSub (simplifyE a) (simplifyE b)
  | .mul a b => mkMul (simplifyE a) (simplifyE b)
  | .neg a => mkNeg (simplifyE a)
  | .div a b => mkDiv (simplifyE a) (simplifyE b)

/-- The model of the collaborator's `sp.cancel` (used by the Christoffel stage
for speed); like `sp.simplify` it is assumed semantics-preserving, and both are
modelled by the same normalizer. -/
def cancelE (e : Expr) : Expr := simplifyE e

theorem eval_mkAdd (v : ℕ → ℚ) (a b : Expr) :
    evalE v (mkAdd a b) = evalE v a + evalE v b := by
  unfold mkAdd
  split_ifs with h1 h2 <;>
    [skip; skip; cases a <;> cases b] <;>
    simp_all [evalE, toRat_fZero, toRat_fadd]

theorem eval_mkSub (v : ℕ → ℚ) (a b : Expr) :
    evalE v (mkSub a b) = evalE v a - evalE v b := by
  unfold mkSub
  split_ifs with h1 <;>
    [skip; cases a <;> cases b] <;>
    simp_all [evalE, toRat_fZero, toRat_fsub]

theorem eval_mkMul (v : ℕ → ℚ) (a b : Expr) :
    evalE v (mkMul a b) = evalE v a * evalE v b := by
  unfold mkMul
  split_ifs with h1 h2 h3 h4 <;>
    [skip; skip; skip; skip; cases a <;> cases b] <;>
    simp_all [evalE, toRat_fZero, toRat_fOne, toRat_fmul]

theorem eval_mkNeg (v : ℕ → ℚ) (a : Expr) :
    evalE v (mkNeg a) = -evalE v a := by
  cases a <;> simp [mkNeg, evalE, toRat_fneg]

theorem eval_mkDiv (v : ℕ → ℚ) (a b : Expr) :
    evalE v (mkDiv a b) = evalE v a / evalE v b := by
  unfold mkDiv
  split_ifs with h1 <;> simp_all [evalE, toRat_fOne]

theorem eval_simplifyE (v : ℕ → ℚ) (e : Expr) :
    evalE v (simplifyE e) = evalE v e := by
  induction e <;>
    simp [simplifyE, evalE, eval_mkAdd, eval_mkSub, eval_mkMul, eval_mkNeg, eval_mkDiv, *]

theorem eval_cancelE (v : ℕ → ℚ) (e : Expr) :
    evalE v (cancelE e) = evalE v e := eval_simplifyE v e

/-- Python-style summation: a left fold of symbolic `+` starting from the
integer `0`, as produced by `sum(...)` and by `acc += term` loops. -/
def pySum (l : List Expr) : Expr := l.foldl Expr.add (Expr.const fZero)

theorem eval_foldl_add (v : ℕ → ℚ) (l : List Expr) (init : Expr) :
    evalE v (l.foldl Expr.add init) = evalE v init + (l.map (evalE v)).sum := by
  induction l generalizing init with
  | nil => simp
  | cons x xs ih => simp [ih, evalE]; ring

theorem eval_pySum (v : ℕ → ℚ) (l : List Expr) :
    evalE v (pySum l) = (l.map (evalE v)).sum := by
  simp [pySum, eval_foldl_add, evalE, toRat_fZero]

theorem sum_map_range (f : ℕ → ℚ) (n : ℕ) :
    ((List.range n).map f).sum = ∑ i ∈ Finset.range n, f i := by
  induction n with
  | zero => simp
  | succ n ih => rw [List.range_succ]; simp [ih, Finset.sum_range_succ]

theorem eval_pySum_range (v : ℕ → ℚ) (f : ℕ → Expr) (n : ℕ) :
    evalE v (pySum ((List.range n).map f)) = ∑ i ∈ Finset.range n, evalE v (f i) := by
  rw [eval_pySum, List.map_map, sum_map_range]
  exact Finset.sum_congr rfl fun i _ => rfl

theorem sum_map_flatMap (h : Expr → ℚ) (l : List ℕ) (g : ℕ → List Expr) :
    (((l.flatMap g)).map h).sum = (l.map (fun a => ((g a).map h).sum)).sum := by
  induction l with
  | nil => simp
  | cons a l ih => simp [List.flatMap_cons, ih]

theorem eval_pySum_flat (v : ℕ → ℚ) (f : ℕ → ℕ → Expr) (n m : ℕ) :
    evalE v (pySum ((List.range n).flatMap fun i => (List.range m).map (f i))) =
      ∑ i ∈ Finset.range n, ∑ j ∈ Finset.range m, evalE v (f i j) := by
  rw [eval_pySum, sum_map_flatMap, sum_map_range]
  refine Finset.sum_congr rfl fun i _ => ?_
  show ((List.map (f i) (List.range m)).map (evalE v)).sum = _
  rw [List.map_map, sum_map_range]
  exact Finset.sum_congr rfl fun j _ => rfl

/-!
## The tensor formulas as the code computes them

The following definitions transcribe, statement by statement, the component
computations of `perform_calculation` (identical in `tensor_calculator_gui.py`
lines 538-554 / 565-581 / 594-667 and `tono_gui.py` lines 497-512 / 523-535 /
551-624).  Tensors are passed as index functions; `coords` maps a coordinate
index to the identifier of its symbol.
-/

/-- The Christoffel component stored by the Christoffel stage:
`sum_val` accumulates `g_inv[rho,lam] * (diff(g[lam,mu],coords[nu]) +
diff(g[lam,nu],coords[mu]) - diff(g[mu,nu],coords[lam]))` over `lam`, and the
stage stores `sp.cancel(sp.Rational(1,2) * sum_val)`. -/
def christoffelComponent (n : ℕ) (g ginv : ℕ → ℕ → Expr) (coords : ℕ → ℕ)
    (rho mu nu : ℕ) : Expr :=
  let sumVal := pySum ((List.range n).map fun lam =>
    Expr.mul (ginv rho lam)
      (Expr.sub
        (Expr.add (deriv (g lam mu) (coords nu)) (deriv (g lam nu) (coords mu)))
        (deriv (g mu nu) (coords lam))))
  cancelE (Expr.mul (Expr.const fHalf) sumVal)

/-- The Ricci component stored by the Ricci stage:
`R[mu,nu] = sp.simplify(term1 - term2 + term3 - term4)` with the four terms
built by Python `sum(...)` generators exactly as in the source. -/
def ricciComponent (n : ℕ) (Gamma : ℕ → ℕ → ℕ → Expr) (coords : ℕ → ℕ)
    (mu nu : ℕ) : Expr :=
  let term1 := pySum ((List.range n).map fun rho => deriv (Gamma rho mu nu) (coords rho))
  let term2 := pySum ((List.range n).map fun rho => deriv (Gamma rho mu rho) (coords nu))
  let term3 := pySum ((List.range n).map fun rho =>
    pySum ((List.range n).map fun sigma =>
      Expr.mul (Gamma rho mu nu) (Gamma sigma rho sigma)))
  let term4 := pySum ((List.range n).map fun sigma =>
    pySum ((List.range n).map fun rho =>
      Expr.mul (Gamma sigma mu rho) (Gamma rho nu sigma)))
  simplifyE (Expr.sub (Expr.add (Expr.sub term1 term2) term3) term4)

/-- The covariant-divergence component stored by the divergence stage:
three accumulators filled by the interleaved `nu`/`lam` loops of the source
(`term1_div += diff(G_mixed[mu,nu], coords[nu])`,
`term2_div += Gamma[mu][lam][nu] * G_mixed[lam,nu]`,
`term3_div += Gamma[nu][lam][nu] * G_mixed[mu,lam]`), then
`sp.simplify(term1_div + term2_div + term3_div)`. -/
def divergenceComponent (n : ℕ) (Gamma : ℕ → ℕ → ℕ → Expr) (Gm : ℕ → ℕ → Expr)
    (coords : ℕ → ℕ) (mu : ℕ) : Expr :=
  let term1 := pySum ((List.range n).map fun nu => deriv (Gm mu nu) (coords nu))
  let term2 := pySum ((List.range n).flatMap fun nu =>
    (List.range n).map fun lam => Expr.mul (Gamma mu lam nu) (Gm lam nu))
  let term3 := pySum ((List.range n).flatMap fun nu =>
    (List.range n).map fun lam => Expr.mul (Gamma nu lam nu) (Gm mu lam))
  simplifyE (Expr.add (Expr.add term1 term2) term3)

/-- The Ricci-scalar expression accumulated by the scalar stage
(`R_scalar_expr += g_inv[i,j] * R[i,j]` over `i`, `j`) before simplification. -/
def ricciScalarComponent (n : ℕ) (ginv R : ℕ → ℕ → Expr) : Expr :=
  simplifyE (pySum ((List.range n).flatMap fun i =>
    (List.range n).map fun j => Expr.mul (ginv i j) (R i j)))

/-- The Einstein-tensor entry `R[mu,nu] - (sp.Rational(1,2) * R_scalar) * g[mu,nu]`,
simplified (the source simplifies the whole matrix, which sympy applies
elementwise). -/
def einsteinComponent (R : ℕ → ℕ → Expr) (Rs : Expr) (g : ℕ → ℕ → Expr)
    (mu nu : ℕ) : Expr :=
  simplifyE (Expr.sub (R mu nu) (Expr.mul (Expr.mul (Expr.const fHalf) Rs) (g mu nu)))

/-- The mixed Einstein-tensor entry of `sp.simplify(g_inv * Einstein_T)`:
the matrix-product entry, simplified. -/
def mixedEinsteinComponent (n : ℕ) (ginv E : ℕ → ℕ → Expr) (mu nu : ℕ) : Expr :=
  simplifyE (pySum ((List.range n).map fun rho => Expr.mul (ginv mu rho) (E rho nu)))

/-!
## The formulas as the spec states them

`…Spec` definitions follow the wording of spec section 4.1; they give the
denoted value of the spec formula under a valuation, with the index sums as
finite sums over `[0, n)`.
-/

/-- Spec 4.1 Christoffel formula
`half the sum over lam of g^(rho lam) (d_nu g_(lam mu) + d_mu g_(lam nu) - d_lam g_(mu nu))`. -/
def christoffelSpec (v : ℕ → ℚ) (n : ℕ) (g ginv : ℕ → ℕ → Expr) (coords : ℕ → ℕ)
    (rho mu nu : ℕ) : ℚ :=
  (1/2) * ∑ lam ∈ Finset.range n,
    evalE v (ginv rho lam) *
      (evalE v (deriv (g lam mu) (coords nu)) + evalE v (deriv (g lam nu) (coords mu))
        - evalE v (deriv (g mu nu) (coords lam)))

/-- Spec 4.1 Ricci formula
`sum_rho d_rho Gamma^rho_(mu nu) - sum_rho d_nu Gamma^rho_(mu rho)
 + sum_(rho sigma) Gamma^rho_(mu nu) Gamma^sigma_(rho sigma)
 - sum_(rho sigma) Gamma^sigma_(mu rho) Gamma^rho_(nu sigma)`. -/
def ricciSpec (v : ℕ → ℚ) (n : ℕ) (Gamma : ℕ → ℕ → ℕ → Expr) (coords : ℕ → ℕ)
    (mu nu : ℕ) : ℚ :=
  (∑ rho ∈ Finset.range n, evalE v (deriv (Gamma rho mu nu) (coords rho)))
  - (∑ rho ∈ Finset.range n, evalE v (deriv (Gamma rho mu rho) (coords nu)))
  + (∑ rho ∈ Finset.range n, ∑ sigma ∈ Finset.range n,
      evalE v (Gamma rho mu nu) * evalE v (Gamma sigma rho sigma))
  - (∑ rho ∈ Finset.range n, ∑ sigma ∈ Finset.range n,
      evalE v (Gamma sigma mu rho) * evalE v (Gamma rho nu sigma))

/-- Spec 4.1 divergence formula, canonical contraction
`sum_nu d_nu G^(mu nu) + sum_(nu lam) Gamma^mu_(lam nu) G^(lam nu)
 + sum_(nu lam) Gamma^nu_(lam nu) G^(mu lam)`. -/
def divergenceSpec (v : ℕ → ℚ) (n : ℕ) (Gamma : ℕ → ℕ → ℕ → Expr) (Gm : ℕ → ℕ → Expr)
    (coords : ℕ → ℕ) (mu : ℕ) : ℚ :=
  (∑ nu ∈ Finset.range n, evalE v (deriv (Gm mu nu) (coords nu)))
  + (∑ nu ∈ Finset.range n, ∑ lam ∈ Finset.range n,
      evalE v (Gamma mu lam nu) * evalE v (Gm lam nu))
  + (∑ nu ∈ Finset.range n, ∑ lam ∈ Finset.range n,
      evalE v (Gamma nu lam nu) * evalE v (Gm mu lam))

/-- C2: for every dimension `n >= 1`, metric `g`, inverse metric `ginv`,
coordinate assignment `coords`, and indices `rho mu nu` in `[0, n)`, the value
the Christoffel stage stores in `Gamma[rho][mu][nu]` is, up to the stage's
(semantics-preserving) simplification, exactly the spec formula
`(1/2) * sum_lam g^(rho lam) (d_nu g_(lam mu) + d_mu g_(lam nu) - d_lam g_(mu nu))`:
both denote the same value under every valuation of the symbols. -/
theorem christoffel_stage_matches_spec (n : ℕ) (hn : 1 ≤ n)
    (g ginv : ℕ → ℕ → Expr) (coords : ℕ → ℕ) (rho mu nu : ℕ)
    (hr : rho < n) (hm : mu < n) (hnu : nu < n) (v : ℕ → ℚ) :
    evalE v (christoffelComponent n g ginv coords rho mu nu) =
      christoffelSpec v n g ginv coords rho mu nu := by
  unfold christoffelComponent christoffelSpec
  rw [eval_cancelE]
  show evalE v (Expr.const fHalf) * _ = _
  rw [show evalE v (Expr.const fHalf) = 1 / 2 from toRat_fHalf]
  rw [eval_pySum_range]
  show (1/2 : ℚ) * _ = _
  congr 1

/-- Witness for `christoffel_stage_matches_spec` at a concrete input. -/
theorem christoffel_stage_matches_spec_witness :
    evalE (fun _ => 0) (christoffelComponent 1 (fun _ _ => .var 0) (fun _ _ => .const fOne)
        (fun _ => 0) 0 0 0) =
      christoffelSpec (fun _ => 0) 1 (fun _ _ => .var 0) (fun _ _ => .const fOne)
        (fun _ => 0) 0 0 0 :=
  christoffel_stage_matches_spec 1 (by decide) _ _ _ 0 0 0
    (by decide) (by decide) (by decide) _

/-- C3: for every dimension `n >= 1`, Christoffel array `Gamma`, coordinate
assignment and indices `mu nu`, the Ricci stage computes `R[mu,nu]` as the
simplification of
`sum_rho d_rho Gamma^rho_(mu nu) - sum_rho d_nu Gamma^rho_(mu rho)
 + sum_(rho sigma) Gamma^rho_(mu nu) Gamma^sigma_(rho sigma)
 - sum_(rho sigma) Gamma^sigma_(mu rho) Gamma^rho_(nu sigma)`,
with exactly these signs and index assignments: the stored component denotes
the spec value under every valuation. -/
theorem ricci_stage_matches_spec (n : ℕ) (hn : 1 ≤ n)
    (Gamma : ℕ → ℕ → ℕ → Expr) (coords : ℕ → ℕ) (mu nu : ℕ)
    (hm : mu < n) (hnu : nu < n) (v : ℕ → ℚ) :
    evalE v (ricciComponent n Gamma coords mu nu) = ricciSpec v n Gamma coords mu nu := by
  simp only [ricciComponent, ricciSpec, eval_simplifyE, evalE, eval_pySum_range]
  congr 1
  exact Finset.sum_comm

/-- Witness for `ricci_stage_matches_spec` at a concrete input. -/
theorem ricci_stage_matches_spec_witness :
    evalE (fun _ => 0) (ricciComponent 1 (fun _ _ _ => .var 0) (fun _ => 0) 0 0) =
      ricciSpec (fun _ => 0) 1 (fun _ _ _ => .var 0) (fun _ => 0) 0 0 :=
  ricci_stage_matches_spec 1 (by decide) _ _ 0 0 (by decide) (by decide) _

/-- C4: for every dimension `n >= 1`, the divergence stage computes component
`mu` of the divergence vector as the simplification of
`sum_nu d_nu G^(mu nu) + sum_(nu lam) Gamma^mu_(lam nu) G^(lam nu)
 + sum_(nu lam) Gamma^nu_(lam nu) G^(mu lam)` — the canonical formula of the
spec, with the second term contracted as `Gamma^mu_(lam nu) G^(lam nu)` and
not with swapped indices: the stored component denotes the spec value under
every valuation. -/
theorem divergence_stage_matches_spec (n : ℕ) (hn : 1 ≤ n)
    (Gamma : ℕ → ℕ → ℕ → Expr) (Gm : ℕ → ℕ → Expr) (coords : ℕ → ℕ)
    (mu : ℕ) (hm : mu < n) (v : ℕ → ℚ) :
    evalE v (divergenceComponent n Gamma Gm coords mu) =
      divergenceSpec v n Gamma Gm coords mu := by
  simp only [divergenceComponent, divergenceSpec, eval_simplifyE, evalE,
    eval_pySum_range, eval_pySum_flat]

/-- Witness for `divergence_stage_matches_spec` at a concrete input. -/
theorem divergence_stage_matches_spec_witness :
    evalE (fun _ => 0) (divergenceComponent 1 (fun _ _ _ => .var 0) (fun _ _ => .var 0)
        (fun _ => 0) 0) =
      divergenceSpec (fun _ => 0) 1 (fun _ _ _ => .var 0) (fun _ _ => .var 0)
        (fun _ => 0) 0 :=
  divergence_stage_matches_spec 1 (by decide) _ _ _ 0 (by decide) _

/-!
## The metric-definition micro-evaluator

`perform_calculation` executes the user's metric-definition code with
`exec(metric_code, {sp, empty builtins}, local_namespace)`.  The spec treats
parsing of the snippet as out of scope ("a sandboxed micro-evaluator ...
specified only as an input contract"), so the snippet is modelled as a list of
already-parsed statements of a Python micro-language; evaluation, name
resolution against the restricted namespaces, and the conversion/validation of
the resulting `metric_matrix` value are modelled faithfully.
-/

/-- The classes of Python exceptions `perform_calculation` can see, by the
handler that catches them.  `synErr` is the `SyntaxError` the metric block
re-raises; it carries the offending source text verbatim (the real message
interpolates `metric_def_str`) and the class of the underlying cause. -/
inductive PyCause where
  | nameCause
  | typeCause
  | valueCause
  | otherCause
  deriving DecidableEq, Repr

/-- Python exceptions of the model.  `nameErr` also stands for
`UnboundLocalError` (its subclass). -/
inductive PyError where
  | interrupted (msg : String)
  | synErr (src : String) (cause : PyCause)
  | valueErr (msg : String)
  | typeErr (msg : String)
  | indexErr
  | attributeErr
  | nameErr (x : String)
  | otherErr (msg : String)
  deriving DecidableEq, Repr

/-- The cause class recorded when the metric block wraps an exception into a
`SyntaxError`. -/
def causeOf : PyError → PyCause
  | .nameErr _ => .nameCause
  | .typeErr _ => .typeCause
  | .valueErr _ => .valueCause
  | _ => .otherCause

/-- Python values the metric code can produce: symbolic expressions (sympy
numbers and symbols included), lists, sympy matrices, and the `sp` module
object. -/
inductive PyVal where
  | expr (e : Expr)
  | listVal (elems : List PyVal)
  | matrixVal (rows : List (List Expr))
  | module

/-- Expressions of the metric micro-language.  A Python list literal
`[a, b, c]` is encoded as the cons chain
`listCons a (listCons b (listCons c listNil))` (see `listOf`). -/
inductive PyExpr where
  | name (x : String)
  | num (q : ℤ)
  | listNil
  | listCons (hd tl : PyExpr)
  | padd (a b : PyExpr)
  | psub (a b : PyExpr)
  | pmul (a b : PyExpr)
  | pdiv (a b : PyExpr)
  | pneg (a : PyExpr)

/-- A Python list literal. -/
def listOf (es : List PyExpr) : PyExpr := es.foldr .listCons .listNil

/-- Statements of the metric micro-language. -/
inductive PyStmt where
  | assign (x : String) (e : PyExpr)
  | exprStmt (e : PyExpr)

/-- A Python namespace: name-to-value bindings, newest first (rebinding a name
shadows the old entry, like a dict overwrite). -/
abbrev Env := List (String × PyVal)

/-- Dict lookup. -/
def lookupEnv : Env → String → Option PyVal
  | [], _ => none
  | (k, v) :: rest, x => if k = x then some v else lookupEnv rest x

/-- Dict write. -/
def bindVar (env : Env) (x : String) (v : PyVal) : Env := (x, v) :: env

/-- Name resolution during `exec`: the locals dict first, then the globals
dict `{sp: sp, builtins: {}}`; the empty builtins dict means every other name
raises `NameError`. -/
def resolveName (locals : Env) (x : String) : Except PyError PyVal :=
  match lookupEnv locals x with
  | some v => .ok v
  | none => if x = "sp" then .ok .module else .error (.nameErr x)

/-- Arithmetic on values: defined on symbolic expressions, a `TypeError`
otherwise. -/
def binArith (op : Expr → Expr → Expr) (va vb : PyVal) : Except PyError PyVal :=
  match va, vb with
  | .expr a, .expr b => .ok (.expr (op a b))
  | _, _ => .error (.typeErr "unsupported operand types")

/-- Evaluation of a micro-language expression in the restricted namespaces. -/
def evalPyExpr (locals : Env) : PyExpr → Except PyError PyVal
  | .name x => resolveName locals x
  | .num q => .ok (.expr (.const (fInt q)))
  | .padd a b => do binArith Expr.add (← evalPyExpr locals a) (← evalPyExpr locals b)
  | .psub a b => do binArith Expr.sub (← evalPyExpr locals a) (← evalPyExpr locals b)
  | .pmul a b => do binArith Expr.mul (← evalPyExpr locals a) (← evalPyExpr locals b)
  | .pdiv a b => do binArith Expr.div (← evalPyExpr locals a) (← evalPyExpr locals b)
  | .pneg a => do
    match ← evalPyExpr locals a with
    | .expr e => .ok (.expr (.neg e))
    | _ => .error (.typeErr "bad operand type for unary minus")
  | .listNil => .ok (.listVal [])
  | .listCons hd tl => do
    let vh ← evalPyExpr locals hd
    let vt ← evalPyExpr locals tl
    match vt with
    | .listVal vs => .ok (.listVal (vh :: vs))
    | _ => .error (.typeErr "malformed list literal")

/-- `exec` of the statement list: assignments write to the locals dict; an
exception aborts execution (the partially updated namespace is never read by
the caller on that path). -/
def execStmts : Env → List PyStmt → Except PyError Env
  | env, [] => .ok env
  | env, .assign x e :: rest => do
    let v ← evalPyExpr env e
    execStmts (bindVar env x v) rest
  | env, .exprStmt e :: rest => do
    let _ ← evalPyExpr env e
    execStmts env rest

/-- Map an option-valued function over a list, failing when any element
fails. -/
def mapO {α β : Type} (f : α → Option β) : List α → Option (List β)
  | [] => some []
  | x :: xs =>
    match f x, mapO f xs with
    | some y, some ys => some (y :: ys)
    | _, _ => none

/-- A row of a matrix literal: a list value all of whose elements are
expressions. -/
def asExprRow : PyVal → Option (List Expr)
  | .listVal xs => mapO (fun v =>
      match v with
      | .expr e => some e
      | _ => none) xs
  | _ => none

/-- Single element as expression. -/
def asExprElem : PyVal → Option Expr
  | .expr e => some e
  | _ => none

/-- All rows have the length of the first row. -/
def rowsRectangular (rows : List (List Expr)) : Bool :=
  rows.all fun r => r.length = (rows.headD []).length

/-- `sp.Matrix(list)`: a list of equal-length expression rows becomes a matrix
of that shape; a flat list of expressions becomes a column; anything else
(ragged rows, non-expression entries) raises `ValueError`. -/
def spMatrixOfList (xs : List PyVal) : Except PyError (List (List Expr)) :=
  match mapO asExprRow xs with
  | some rows =>
    if rowsRectangular rows then .ok rows
    else .error (.valueErr "mismatched dimensions in matrix rows")
  | none =>
    match mapO asExprElem xs with
    | some col => .ok (col.map fun e => [e])
    | none => .error (.valueErr "could not create matrix from given data")

/-- `Matrix.shape`. -/
def matShape (rows : List (List Expr)) : ℕ × ℕ :=
  (rows.length, (rows.headD []).length)

/-- The metric-resolution block of `perform_calculation`
(`tensor_calculator_gui.py` lines 481-501, `tono_gui.py` lines 444-462):
execute the snippet, require the binding `metric_matrix`, convert a list via
`sp.Matrix`, accept a matrix as is, reject other types, then validate the
shape against the number of coordinates. -/
def resolveMetric (locals0 : Env) (stmts : List PyStmt) (n : ℕ) :
    Except PyError (List (List Expr)) := do
  let env ← execStmts locals0 stmts
  match lookupEnv env "metric_matrix" with
  | none => .error (.nameErr "metric_matrix")
  | some mv => do
    let g ← (match mv with
      | .listVal xs => spMatrixOfList xs
      | .matrixVal rows => .ok rows
      | _ => .error (.typeErr "metric definition must be a list of lists or a Matrix"))
    if matShape g = (n, n) then .ok g
    else .error (.valueErr "metric dimensions do not match number of coordinates")

/-- The matrix a bound value yields according to the amended resolution
contract: a matrix value as is; a list of equal-length expression rows as that
matrix; a flat expression list as a column; nothing otherwise. -/
def claimedMatrix : PyVal → Option (List (List Expr))
  | .matrixVal rows => some rows
  | .listVal xs =>
    match mapO asExprRow xs with
    | some rows => if rowsRectangular rows then some rows else none
    | none =>
      match mapO asExprElem xs with
      | some col => some (col.map fun e => [e])
      | none => none
  | _ => none

/-- The amended success condition for metric resolution, written from the
amended claim: evaluation raises no error, `metric_matrix` is bound, the bound
value converts to a matrix, and the shape is `(n, n)`. -/
def resolveSpecOk (locals0 : Env) (stmts : List PyStmt) (n : ℕ) : Bool :=
  match execStmts locals0 stmts with
  | .error _ => false
  | .ok env =>
    match lookupEnv env "metric_matrix" with
    | none => false
    | some mv =>
      match claimedMatrix mv with
      | none => false
      | some g => matShape g = (n, n)

/-!
## Input processing

Coordinate and parameter names are comma-separated; both files strip and drop
empty fragments, reject an empty coordinate list, and build sympy symbols.
Sympy interns symbols by name and assumptions, so repeated names (with the
same assumptions) denote the same symbol: the symbol table assigns one
identifier per distinct (name, positive-flag) pair.
-/

/-- Split a character list at every occurrence of `sep`. -/
def splitOnCharL (sep : Char) : List Char → List (List Char)
  | [] => [[]]
  | c :: rest =>
    let r := splitOnCharL sep rest
    if c = sep then [] :: r
    else
      match r with
      | [] => [[c]]
      | l :: ls => (c :: l) :: ls

/-- Python `str.strip()`: drop whitespace from both ends. -/
def trimL (cs : List Char) : List Char :=
  ((cs.dropWhile Char.isWhitespace).reverse.dropWhile Char.isWhitespace).reverse

/-- `[s.strip() for s in text.split(",") if s.strip()]`. -/
def splitAndStrip (s : String) : List String :=
  (((splitOnCharL ',' s.data).map fun cs => String.mk (trimL cs)).filter
    (fun t => t ≠ ""))

/-- Symbol table: one entry per distinct (name, positive-assumption) pair;
the identifier of a symbol is its index. -/
abbrev SymTable := List (String × Bool)

/-- Intern one symbol. -/
def internSym (tbl : SymTable) (name : String) (positive : Bool) : ℕ × SymTable :=
  match List.findIdx? (fun p => p = (name, positive)) tbl with
  | some i => (i, tbl)
  | none => (List.length tbl, tbl ++ [(name, positive)])

/-- Intern a list of names, left to right. -/
def internAll (names : List String) (positive : Bool) (tbl : SymTable) :
    List ℕ × SymTable :=
  match names with
  | [] => ([], tbl)
  | nm :: rest =>
    let r1 := internSym tbl nm positive
    let r2 := internAll rest positive r1.2
    (r1.1 :: r2.1, r2.2)

/-- The coordinate-processing block (`tensor_calculator_gui.py` lines 437-445,
`tono_gui.py` lines 394-405): split on commas, strip, drop empties, raise
`ValueError` when nothing remains, build one real symbol per name.  There is
no duplicate check. -/
def parseCoordinates (s : String) :
    Except PyError (List String × List ℕ × SymTable) :=
  let names := splitAndStrip s
  if names.isEmpty then .error (.valueErr "no coordinate names provided")
  else
    let r := internAll names false []
    if names.length = 0 then .error (.valueErr "number of coordinates must be positive")
    else .ok (names, r.1, r.2)

/-- The symbol-processing block: optional, never fails in the model (building
positive real symbols raises nothing); returns the parameter bindings. -/
def parseSymbols (s : String) (tbl : SymTable) : List (String × ℕ) × SymTable :=
  if s = "" then ([], tbl)
  else
    let names := splitAndStrip s
    if names.isEmpty then ([], tbl)
    else
      let r := internAll names true tbl
      (names.zip r.1, r.2)

/-- The two near-duplicate implementations of `perform_calculation`. -/
inductive Variant where
  | tcg
  | tono
  deriving DecidableEq, Repr

/-- The locals dict handed to `exec`: empty in `tensor_calculator_gui.py`,
pre-seeded with the binding `sp` in `tono_gui.py` (line 380), then the
coordinate symbols and the parameter symbols in insertion order. -/
def metricLocals (variant : Variant) (cNames : List String) (cIds : List ℕ)
    (sBinds : List (String × ℕ)) : Env :=
  let e0 : Env := match variant with
    | .tcg => []
    | .tono => [("sp", .module)]
  let e1 := (cNames.zip cIds).foldl (fun e p => bindVar e p.1 (.expr (.var p.2))) e0
  sBinds.foldl (fun e p => bindVar e p.1 (.expr (.var p.2))) e1

/-!
## Output records, run state and the worker monad

The worker's observable output is modelled as an append-only list of records
(section headers, per-component notes, matrices, components, diagnostics).
The shared `self.running` flag, written concurrently by the foreground, is
modelled as an oracle `sched : Nat -> Bool` giving the value seen by the k-th
read; the worker state threads the read counter, the records, and the Python
local variables `mu`, `nu` of `perform_calculation` (read by the
`tensor_calculator_gui.py` progress gates, possibly before assignment).
-/

/-- Tags for the output sections of the run. -/
inductive StageTag where
  | inputCoords
  | inputSymbols
  | inputMetric
  | metricEcho
  | inverseMetric
  | christoffel
  | ricci
  | ricciScalar
  | einstein
  | mixedEinstein
  | divergence
  | divergenceResult
  | finished
  deriving DecidableEq, Repr

/-- Which `except` arm of `perform_calculation` handles an error. -/
inductive HandlerClass where
  | stoppedByUser
  | inputOrCalcError
  | unexpectedError
  deriving DecidableEq, Repr

/-- Output records. -/
inductive OutRec where
  | header (t : StageTag)
  | stageNote (t : StageTag) (idx : List ℕ)
  | matrixRec (t : StageTag) (rows : List (List Expr))
  | componentRec (t : StageTag) (idx : List ℕ) (e : Expr)
  | diagnostic (h : HandlerClass) (err : PyError)
  deriving DecidableEq, Repr

/-- Terminal run states. -/
inductive RState where
  | completed
  | cancelled
  | failed
  deriving DecidableEq, Repr

/-- The derived entities of a successful run. -/
structure Entities where
  gInv : List (List Expr)
  Gamma : List (List (List Expr))
  ricci : List (List Expr)
  ricciScalar : Expr
  einstein : List (List Expr)
  mixedE : List (List Expr)
  divergence : List Expr
  deriving DecidableEq, Repr

/-- The outcome of one `perform_calculation` run. -/
structure RunResult where
  state : RState
  records : List OutRec
  entities : Option Entities
  deriving DecidableEq, Repr

/-- Worker-visible mutable state. -/
structure WSt where
  k : ℕ
  recs : List OutRec
  muVar : Option ℕ
  nuVar : Option ℕ

/-- The value seen by the k-th read of the shared `self.running` flag. -/
abbrev Sched := ℕ → Bool

/-- A worker step: either a value or a raised exception, together with the
updated worker state (the emitted records survive a raise, as the printed
output does in the program). -/
abbrev StepRes (α : Type) := Except PyError α × WSt

/-- `if not self.running: raise InterruptedError(msg)` — one read of the
shared flag. -/
def doCheck (msg : String) (sched : Sched) : WSt → StepRes Unit
  | ⟨k, recs, muV, nuV⟩ =>
    if sched k then (.ok (), ⟨k + 1, recs, muV, nuV⟩)
    else (.error (.interrupted msg), ⟨k + 1, recs, muV, nuV⟩)

/-- A `print` that produces one output record. -/
def doEmit (r : OutRec) : WSt → WSt
  | ⟨k, recs, muV, nuV⟩ => ⟨k, recs ++ [r], muV, nuV⟩

/-!
## The staged pipeline
-/

/-- Row-indexed view of a matrix stored as a list of rows. -/
def fn2 (rows : List (List Expr)) : ℕ → ℕ → Expr :=
  fun i j => (rows.getD i []).getD j (.const fZero)

/-- Indexed view of a rank-3 array stored as nested lists. -/
def fn3 (xs : List (List (List Expr))) : ℕ → ℕ → ℕ → Expr :=
  fun r m v => ((xs.getD r []).getD m []).getD v (.const fZero)

/-- The minor of `g` obtained by deleting row `r` and column `c`. -/
def minorE (g : ℕ → ℕ → Expr) (r c : ℕ) : ℕ → ℕ → Expr :=
  fun i j => g (if i < r then i else i + 1) (if j < c then j else j + 1)

/-- Determinant by cofactor expansion along the first row; the model of the
collaborator's symbolic determinant. -/
def detE : ℕ → (ℕ → ℕ → Expr) → Expr
  | 0, _ => .const fOne
  | n + 1, g =>
    pySum ((List.range (n + 1)).map fun j =>
      let t := Expr.mul (g 0 j) (detE n (minorE g 0 j))
      if j % 2 = 0 then t else .neg t)

/-- `sp.simplify(g.inv())`: the adjugate-over-determinant inverse, simplified
elementwise (the collaborator's matrix inversion, assumed correct). -/
def invMatrix (n : ℕ) (g : ℕ → ℕ → Expr) : List (List Expr) :=
  let d := detE n g
  (List.range n).map fun i => (List.range n).map fun j =>
    let dm := detE (n - 1) (minorE g j i)
    let cof := if (j + i) % 2 = 0 then dm else .neg dm
    simplifyE (.div cof d)

/-- The inverse-metric stage: the collaborator raises (a `ValueError`
subclass) on a non-invertible metric. -/
def inverseMetricStage (n : ℕ) (g : ℕ → ℕ → Expr) (st : WSt) :
    StepRes (List (List Expr)) :=
  if simplifyE (detE n g) = .const fZero then
    (.error (.valueErr "matrix is not invertible"), st)
  else (.ok (invMatrix n g), st)

/-- Innermost Christoffel loop (`for nu in range(n)`, both files): bind `nu`,
check the cancellation flag, compute the component. -/
def christoffelNuLoop (n rho mu : ℕ) (g ginv : ℕ → ℕ → Expr) (coords : ℕ → ℕ)
    (sched : Sched) : List ℕ → WSt → StepRes (List Expr)
  | [], st => (.ok [], st)
  | nu :: rest, st =>
    match st with
    | ⟨k, recs, muV, _⟩ =>
      match doCheck "calculation stopped at Gamma" sched ⟨k, recs, muV, some nu⟩ with
      | (.ok _, st1) =>
        match christoffelNuLoop n rho mu g ginv coords sched rest st1 with
        | (.ok vs, st2) => (.ok (christoffelComponent n g ginv coords rho mu nu :: vs), st2)
        | (.error e, st2) => (.error e, st2)
      | (.error e, st1) => (.error e, st1)

/-- Middle Christoffel loop (`for mu in range(n)`): bind `mu`, run the inner
loop. -/
def christoffelMuLoop (n rho : ℕ) (g ginv : ℕ → ℕ → Expr) (coords : ℕ → ℕ)
    (sched : Sched) : List ℕ → WSt → StepRes (List (List Expr))
  | [], st => (.ok [], st)
  | mu :: rest, st =>
    match st with
    | ⟨k, recs, _, nuV⟩ =>
      match christoffelNuLoop n rho mu g ginv coords sched (List.range n) ⟨k, recs, some mu, nuV⟩ with
      | (.ok row, st2) =>
        match christoffelMuLoop n rho g ginv coords sched rest st2 with
        | (.ok rows, st3) => (.ok (row :: rows), st3)
        | (.error e, st3) => (.error e, st3)
      | (.error e, st2) => (.error e, st2)

/-- Outer Christoffel loop (`for rho in range(n)`).  In
`tensor_calculator_gui.py` the body begins with the progress gate
`if mu == 0 and nu == 0:` (lines 540-542) — a read of the loop variables
`mu`, `nu` before the loops below bind them, with Python short-circuit
evaluation of `and`; `tono_gui.py` has no such read. -/
def christoffelRhoLoop (variant : Variant) (n : ℕ) (g ginv : ℕ → ℕ → Expr)
    (coords : ℕ → ℕ) (sched : Sched) : List ℕ → WSt → StepRes (List (List (List Expr)))
  | [], st => (.ok [], st)
  | rho :: rest, st =>
    let gate : StepRes Unit :=
      match variant, st with
      | .tcg, ⟨k, recs, muV, nuV⟩ =>
        match muV with
        | none => (.error (.nameErr "mu"), ⟨k, recs, muV, nuV⟩)
        | some m =>
          if m = 0 then
            match nuV with
            | none => (.error (.nameErr "nu"), ⟨k, recs, muV, nuV⟩)
            | some _ => (.ok (), ⟨k, recs, muV, nuV⟩)
          else (.ok (), ⟨k, recs, muV, nuV⟩)
      | .tono, s => (.ok (), s)
    match gate with
    | (.ok _, st1) =>
      match christoffelMuLoop n rho g ginv coords sched (List.range n) st1 with
      | (.ok plane, st2) =>
        match christoffelRhoLoop variant n g ginv coords sched rest st2 with
        | (.ok planes, st3) => (.ok (plane :: planes), st3)
        | (.error e, st3) => (.error e, st3)
      | (.error e, st2) => (.error e, st2)
    | (.error e, st1) => (.error e, st1)

/-- The Christoffel stage: the triple loop over `(rho, mu, nu)` with a flag
check at every innermost iteration. -/
def christoffelStage (variant : Variant) (n : ℕ) (g ginv : ℕ → ℕ → Expr)
    (coords : ℕ → ℕ) (sched : Sched) (st : WSt) : StepRes (List (List (List Expr))) :=
  christoffelRhoLoop variant n g ginv coords sched (List.range n) st

/-- Innermost Ricci loop (`for nu in range(n)`): bind `nu`, check the flag,
(in `tono_gui.py`) print the per-component note, compute the component. -/
def ricciNuLoop (variant : Variant) (n mu : ℕ) (Gamma3 : ℕ → ℕ → ℕ → Expr)
    (coords : ℕ → ℕ) (sched : Sched) : List ℕ → WSt → StepRes (List Expr)
  | [], st => (.ok [], st)
  | nu :: rest, st =>
    match st with
    | ⟨k, recs, muV, _⟩ =>
      match doCheck "calculation stopped at Ricci component" sched ⟨k, recs, muV, some nu⟩ with
      | (.ok _, st1) =>
        let st2 := match variant with
          | .tcg => st1
          | .tono => doEmit (.stageNote .ricci [mu, nu]) st1
        match ricciNuLoop variant n mu Gamma3 coords sched rest st2 with
        | (.ok vs, st3) => (.ok (ricciComponent n Gamma3 coords mu nu :: vs), st3)
        | (.error e, st3) => (.error e, st3)
      | (.error e, st1) => (.error e, st1)

/-- Outer Ricci loop (`for mu in range(n)`).  In `tensor_calculator_gui.py`
the body begins with the progress gate `if nu == 0:` (lines 567-569), a read
of the `nu` left over from the Christoffel loops. -/
def ricciMuLoop (variant : Variant) (n : ℕ) (Gamma3 : ℕ → ℕ → ℕ → Expr)
    (coords : ℕ → ℕ) (sched : Sched) : List ℕ → WSt → StepRes (List (List Expr))
  | [], st => (.ok [], st)
  | mu :: rest, st =>
    match st with
    | ⟨k, recs, _, nuV⟩ =>
      let gate : StepRes Unit :=
        match variant with
        | .tcg =>
          match nuV with
          | none => (.error (.nameErr "nu"), ⟨k, recs, some mu, nuV⟩)
          | some _ => (.ok (), ⟨k, recs, some mu, nuV⟩)
        | .tono => (.ok (), ⟨k, recs, some mu, nuV⟩)
      match gate with
      | (.ok _, st1) =>
        match ricciNuLoop variant n mu Gamma3 coords sched (List.range n) st1 with
        | (.ok row, st2) =>
          match ricciMuLoop variant n Gamma3 coords sched rest st2 with
          | (.ok rows, st3) => (.ok (row :: rows), st3)
          | (.error e, st3) => (.error e, st3)
        | (.error e, st2) => (.error e, st2)
      | (.error e, st1) => (.error e, st1)

/-- The Ricci stage: the double loop over `(mu, nu)` with a flag check at
every per-component iteration. -/
def ricciStage (variant : Variant) (n : ℕ) (Gamma3 : ℕ → ℕ → ℕ → Expr)
    (coords : ℕ → ℕ) (sched : Sched) (st : WSt) : StepRes (List (List Expr)) :=
  ricciMuLoop variant n Gamma3 coords sched (List.range n) st

/-- Inner flag-check loop of the Ricci-scalar accumulation. -/
def scalarJLoop (sched : Sched) : List ℕ → WSt → StepRes Unit
  | [], st => (.ok (), st)
  | _j :: rest, st =>
    match doCheck "calculation stopped during Ricci scalar summation" sched st with
    | (.ok _, st1) => scalarJLoop sched rest st1
    | (.error e, st1) => (.error e, st1)

/-- The Ricci-scalar accumulation loop checks the flag at every `(i, j)`
iteration (the summation itself is pure). -/
def scalarILoop (n : ℕ) (sched : Sched) : List ℕ → WSt → StepRes Unit
  | [], st => (.ok (), st)
  | _i :: rest, st =>
    match scalarJLoop sched (List.range n) st with
    | (.ok _, st1) => scalarILoop n sched rest st1
    | (.error e, st1) => (.error e, st1)

/-- `pretty_print_tensor_latex`: for each entry of the index list, check the
flag, then print the component.  (The callers pass an empty index list for the
Ricci scalar, so that call prints nothing.) -/
def prettyPrintLoop (tag : StageTag) (get : List ℕ → Expr) (sched : Sched) :
    List (List ℕ) → WSt → StepRes Unit
  | [], st => (.ok (), st)
  | idx :: rest, st =>
    match doCheck "calculation stopped by user during output printing" sched st with
    | (.ok _, st1) =>
      prettyPrintLoop tag get sched rest (doEmit (.componentRec tag idx (get idx)) st1)
    | (.error e, st1) => (.error e, st1)

/-- Flag checks of the inner `lam` accumulation loop of the divergence. -/
def divLamLoop (sched : Sched) : List ℕ → WSt → StepRes Unit
  | [], st => (.ok (), st)
  | _lam :: rest, st =>
    match doCheck "calculation stopped at divergence lam" sched st with
    | (.ok _, st1) => divLamLoop sched rest st1
    | (.error e, st1) => (.error e, st1)

/-- Flag checks of the `nu` accumulation loop of the divergence. -/
def divNuLoop (n : ℕ) (sched : Sched) : List ℕ → WSt → StepRes Unit
  | [], st => (.ok (), st)
  | _nu :: rest, st =>
    match doCheck "calculation stopped at divergence nu" sched st with
    | (.ok _, st1) =>
      match divLamLoop sched (List.range n) st1 with
      | (.ok _, st2) => divNuLoop n sched rest st2
      | (.error e, st2) => (.error e, st2)
    | (.error e, st1) => (.error e, st1)

/-- The covariant-divergence stage: per `mu` a flag check and a note, flag
checks at every `nu` and every `(nu, lam)` iteration of the accumulation
loops, then the simplified component. -/
def divMuLoop (n : ℕ) (Gamma3 : ℕ → ℕ → ℕ → Expr) (Gm : ℕ → ℕ → Expr)
    (coords : ℕ → ℕ) (sched : Sched) : List ℕ → WSt → StepRes (List Expr)
  | [], st => (.ok [], st)
  | mu :: rest, st =>
    match doCheck "calculation stopped at divergence" sched st with
    | (.ok _, st1) =>
      match divNuLoop n sched (List.range n) (doEmit (.stageNote .divergence [mu]) st1) with
      | (.ok _, st2) =>
        match divMuLoop n Gamma3 Gm coords sched rest st2 with
        | (.ok vs, st3) => (.ok (divergenceComponent n Gamma3 Gm coords mu :: vs), st3)
        | (.error e, st3) => (.error e, st3)
      | (.error e, st2) => (.error e, st2)
    | (.error e, st1) => (.error e, st1)

/-- The input to one run. -/
structure CalcInput where
  coordsStr : String
  symbolsStr : String
  metricSrcText : String
  metricStmts : List PyStmt

/-- The body of the `try` block of `perform_calculation`: input processing,
metric resolution, and the staged computation, in the order and with the
cancellation checks of the source. -/
def tryBody (variant : Variant) (inp : CalcInput) (sched : Sched) (st0 : WSt) :
    StepRes Entities :=
  let st1 := match variant with
    | .tcg => doEmit (.header .inputCoords) st0
    | .tono => st0
  match parseCoordinates inp.coordsStr with
  | .error e => (.error e, st1)
  | .ok pc =>
    let n := pc.1.length
    let st2 := doEmit (.stageNote .inputCoords [n]) st1
    let st3 := match variant with
      | .tcg => doEmit (.header .inputSymbols) st2
      | .tono => st2
    let sres := parseSymbols inp.symbolsStr pc.2.2
    let st4 := doEmit (.header .inputMetric) (doEmit (.stageNote .inputSymbols [sres.1.length]) st3)
    match resolveMetric (metricLocals variant pc.1 pc.2.1 sres.1) inp.metricStmts n with
    | .error e => (.error (.synErr inp.metricSrcText (causeOf e)), st4)
    | .ok g =>
      match doCheck "calculation stopped before starting computations" sched st4 with
      | (.error e, st5) => (.error e, st5)
      | (.ok _, st5) =>
        let st6 := doEmit (.header .inverseMetric)
          (doEmit (.matrixRec .metricEcho g) (doEmit (.header .metricEcho) st5))
        let gF := fn2 g
        match inverseMetricStage n gF st6 with
        | (.error e, st7) => (.error e, st7)
        | (.ok ginvRows, st7) =>
          let st8 := doEmit (.matrixRec .inverseMetric ginvRows) st7
          match doCheck "calculation stopped after inverse metric" sched st8 with
          | (.error e, st9) => (.error e, st9)
          | (.ok _, st9) =>
            let st10 := doEmit (.header .christoffel) st9
            let coords := fun i => (pc.2.1).getD i 0
            match christoffelStage variant n gF (fn2 ginvRows) coords sched st10 with
            | (.error e, st11) => (.error e, st11)
            | (.ok GammaL, st11) =>
              match doCheck "calculation stopped after Christoffel symbols" sched st11 with
              | (.error e, st12) => (.error e, st12)
              | (.ok _, st12) =>
                let st13 := doEmit (.header .ricci) st12
                match ricciStage variant n (fn3 GammaL) coords sched st13 with
                | (.error e, st14) => (.error e, st14)
                | (.ok R, st14) =>
                  let st15 := doEmit (.matrixRec .ricci R) st14
                  match doCheck "calculation stopped after Ricci tensor" sched st15 with
                  | (.error e, st16) => (.error e, st16)
                  | (.ok _, st16) =>
                    let st17 := doEmit (.header .ricciScalar) st16
                    match scalarILoop n sched (List.range n) st17 with
                    | (.error e, st18) => (.error e, st18)
                    | (.ok _, st18) =>
                      let Rs := ricciScalarComponent n (fn2 ginvRows) (fn2 R)
                      match prettyPrintLoop .ricciScalar (fun _ => Rs) sched [] st18 with
                      | (.error e, st19) => (.error e, st19)
                      | (.ok _, st19) =>
                        match doCheck "calculation stopped after Ricci scalar" sched st19 with
                        | (.error e, st20) => (.error e, st20)
                        | (.ok _, st20) =>
                          let st21 := doEmit (.header .einstein) st20
                          let E := (List.range n).map fun i => (List.range n).map fun j =>
                            einsteinComponent (fn2 R) Rs gF i j
                          match prettyPrintLoop .einstein
                              (fun idx => fn2 E (idx.getD 0 0) (idx.getD 1 0)) sched
                              ((List.range n).flatMap fun i => (List.range n).map fun j => [i, j])
                              st21 with
                          | (.error e, st22) => (.error e, st22)
                          | (.ok _, st22) =>
                            match doCheck "calculation stopped after Einstein tensor" sched st22 with
                            | (.error e, st23) => (.error e, st23)
                            | (.ok _, st23) =>
                              let st24 := doEmit (.header .mixedEinstein) st23
                              let Gm := (List.range n).map fun i => (List.range n).map fun j =>
                                mixedEinsteinComponent n (fn2 ginvRows) (fn2 E) i j
                              match prettyPrintLoop .mixedEinstein
                                  (fun idx => fn2 Gm (idx.getD 0 0) (idx.getD 1 0)) sched
                                  ((List.range n).flatMap fun i => (List.range n).map fun j => [i, j])
                                  st24 with
                              | (.error e, st25) => (.error e, st25)
                              | (.ok _, st25) =>
                                match doCheck "calculation stopped after mixed Einstein tensor" sched st25 with
                                | (.error e, st26) => (.error e, st26)
                                | (.ok _, st26) =>
                                  let st27 := doEmit (.header .divergence) st26
                                  match divMuLoop n (fn3 GammaL) (fn2 Gm) coords sched (List.range n) st27 with
                                  | (.error e, st28) => (.error e, st28)
                                  | (.ok divG, st28) =>
                                    let st29 := doEmit (.header .divergenceResult) st28
                                    match prettyPrintLoop .divergenceResult
                                        (fun idx => divG.getD (idx.getD 0 0) (.const fZero)) sched
                                        ((List.range n).map fun i => [i]) st29 with
                                    | (.error e, st30) => (.error e, st30)
                                    | (.ok _, st30) =>
                                      (.ok ⟨ginvRows, GammaL, R, Rs, E, Gm, divG⟩,
                                        doEmit (.header .finished) st30)

/-- Which `except` arm catches an error: `InterruptedError` first, then the
tuple `(SyntaxError, ValueError, TypeError, IndexError, AttributeError)`, then
the catch-all `except Exception` (`NameError`/`UnboundLocalError` land
there). -/
def classify : PyError → HandlerClass
  | .interrupted _ => .stoppedByUser
  | .synErr _ _ => .inputOrCalcError
  | .valueErr _ => .inputOrCalcError
  | .typeErr _ => .inputOrCalcError
  | .indexErr => .inputOrCalcError
  | .attributeErr => .inputOrCalcError
  | .nameErr _ => .unexpectedError
  | .otherErr _ => .unexpectedError

/-- The terminal state a handler produces: user stop is Cancelled, both error
handlers leave the run failed. -/
def stateOfClass : HandlerClass → RState
  | .stoppedByUser => .cancelled
  | .inputOrCalcError => .failed
  | .unexpectedError => .failed

/-- Initial worker state: no flag reads yet, no records, `mu`/`nu` unbound. -/
def initSt : WSt := ⟨0, [], none, none⟩

/-- `perform_calculation`: run the `try` body; on success the run is
Completed with the derived entities; on an exception the matching handler
prints a final diagnostic and the run ends Cancelled or Failed.  The method
always returns normally. -/
def performCalc (variant : Variant) (inp : CalcInput) (sched : Sched) :
    RunResult :=
  match tryBody variant inp sched initSt with
  | (.ok ents, s) => ⟨.completed, s.recs, some ents⟩
  | (.error e, s) =>
    ⟨stateOfClass (classify e), s.recs ++ [.diagnostic (classify e) e], none⟩

/-!
## Concrete runs (spec section 8, scenario A and the rejection scenarios)
-/

/-- Scenario A input: `coords = (x, y)`, no parameters, metric `diag(1, 1)`
given as the list literal `[[1, 0], [0, 1]]` bound to `metric_matrix`. -/
def flatInput : CalcInput :=
  { coordsStr := "x, y"
    symbolsStr := ""
    metricSrcText := "metric_matrix = [[1, 0], [0, 1]]"
    metricStmts := [.assign "metric_matrix"
      (listOf [listOf [.num 1, .num 0], listOf [.num 0, .num 1]])] }

/-- A run that is never cancelled: every read of the flag sees true. -/
def trueSched : Sched := fun _ => true

/-- The entities scenario A claims: identity inverse metric, all Christoffel
components zero, zero Ricci tensor, zero scalar, zero Einstein and mixed
tensors, zero divergence vector. -/
def flatEntities : Entities :=
  { gInv := [[.const fOne, .const fZero], [.const fZero, .const fOne]]
    Gamma := [[[.const fZero, .const fZero], [.const fZero, .const fZero]],
              [[.const fZero, .const fZero], [.const fZero, .const fZero]]]
    ricci := [[.const fZero, .const fZero], [.const fZero, .const fZero]]
    ricciScalar := .const fZero
    einstein := [[.const fZero, .const fZero], [.const fZero, .const fZero]]
    mixedE := [[.const fZero, .const fZero], [.const fZero, .const fZero]]
    divergence := [.const fZero, .const fZero] }

/-- C1: on the flat 2D input, the `tono_gui.py` run completes with exactly the
claimed zero tensors and identity inverse metric, but the
`tensor_calculator_gui.py` run never completes: its Christoffel stage reads
the unbound loop variable `mu` in the progress gate `if mu == 0 and nu == 0:`
at the first `rho` iteration, raising `UnboundLocalError`, which the catch-all
handler converts to a Failed run with an unexpected-error diagnostic. -/
theorem flat2d_run_outcomes :
    (performCalc .tono flatInput trueSched).state = .completed ∧
    (performCalc .tono flatInput trueSched).entities = some flatEntities ∧
    (performCalc .tcg flatInput trueSched).state = .failed ∧
    (performCalc .tcg flatInput trueSched).records.getLast? =
      some (.diagnostic .unexpectedError (.nameErr "mu")) := by
  refine ⟨by decide, by decide, by decide, by decide⟩

/-- True of the records that announce or carry the Ricci tensor. -/
def ricciRecord : OutRec → Bool
  | .header .ricci => true
  | .stageNote .ricci _ => true
  | .matrixRec .ricci _ => true
  | .componentRec .ricci _ _ => true
  | _ => false

/-- A flag schedule whose fifth and later reads see false: the cancellation
request lands during the Christoffel stage of the flat 2D run (reads 0 and 1
are the pre-stage gates, reads 2 and 3 the first two Christoffel components). -/
def cancelSched : Sched := fun k => k < 4

/-- C7: with cancellation requested during the Christoffel stage,
`tono_gui.py` stops at the next per-component flag check — the run ends
Cancelled, no partially computed entities are exposed, and no Ricci-tensor
record is ever emitted; `tensor_calculator_gui.py` under the same schedule
never reaches a per-component check: its Christoffel stage raises
`UnboundLocalError` first and the run ends Failed, not Cancelled. -/
theorem cancel_during_christoffel :
    (performCalc .tono flatInput cancelSched).state = .cancelled ∧
    (performCalc .tono flatInput cancelSched).entities = none ∧
    ((performCalc .tono flatInput cancelSched).records.all
      fun r => !ricciRecord r) = true ∧
    (performCalc .tono flatInput cancelSched).records.getLast? =
      some (.diagnostic .stoppedByUser
        (.interrupted "calculation stopped at Gamma")) ∧
    (performCalc .tcg flatInput cancelSched).state = .failed := by
  refine ⟨by decide, by decide, by decide, by decide, by decide⟩

/-- `Except.isOk` as a plain boolean. -/
def exceptOk {ε α : Type} : Except ε α → Bool
  | .ok _ => true
  | .error _ => false

/-- The duplicate-coordinates rejection scenario: `coordNames = "t, t"` with
the flat metric. -/
def dupInput : CalcInput :=
  { coordsStr := "t, t"
    symbolsStr := ""
    metricSrcText := "metric_matrix = [[1, 0], [0, 1]]"
    metricStmts := [.assign "metric_matrix"
      (listOf [listOf [.num 1, .num 0], listOf [.num 0, .num 1]])] }

/-- C5 counterexample: `coordNames = "t, t"` does not produce an input error —
coordinate parsing succeeds with both occurrences kept (the two parsed symbols
are the same interned symbol), the inverse-metric stage runs (its section
header is emitted), and with the flat metric the `tono_gui.py` run completes. -/
theorem duplicate_coords_not_rejected :
    parseCoordinates "t, t" = .ok (["t", "t"], [0, 0], [("t", false)]) ∧
    (performCalc .tono dupInput trueSched).state = .completed ∧
    OutRec.header .inverseMetric ∈ (performCalc .tono dupInput trueSched).records := by
  refine ⟨rfl, by decide, by decide⟩

/-- C5 amended: coordinate parsing raises an input error exactly when no
nonempty name remains after splitting and stripping; duplicates are accepted
(`"t, t"` parses to two coordinates sharing one symbol) and the pipeline
proceeds into the computation stages and completes on the flat metric. -/
theorem duplicate_coords_amended :
    (∀ s : String, exceptOk (parseCoordinates s) = !(splitAndStrip s).isEmpty) ∧
    parseCoordinates "t, t" = .ok (["t", "t"], [0, 0], [("t", false)]) ∧
    (performCalc .tono dupInput trueSched).state = .completed := by
  refine ⟨fun s => ?_, rfl, by decide⟩
  unfold parseCoordinates
  by_cases h : (splitAndStrip s).isEmpty
  · simp [h, exceptOk]
  · have hne : splitAndStrip s ≠ [] := by
      simpa [List.isEmpty_iff] using h
    simp [h, exceptOk, List.length_eq_zero, hne]

/-- C8: the run always reaches a terminal state: either the `try` body
finishes and the run is Completed with its entities, or some exception `e` was
raised, the matching handler classified it, the run ends in the corresponding
terminal state (Cancelled for `InterruptedError`, Failed otherwise), and the
last output record is the handler's diagnostic carrying the failure kind.  The
modelled `perform_calculation` is a total function, so no exception escapes. -/
theorem run_always_terminates (variant : Variant) (inp : CalcInput) (sched : Sched) :
    ((performCalc variant inp sched).state = .completed ∧
      (performCalc variant inp sched).entities ≠ none) ∨
    ∃ e : PyError,
      (performCalc variant inp sched).state = stateOfClass (classify e) ∧
      (performCalc variant inp sched).state ≠ .completed ∧
      (performCalc variant inp sched).records.getLast? =
        some (.diagnostic (classify e) e) := by
  unfold performCalc
  cases htb : tryBody variant inp sched initSt with
  | mk res s =>
    cases res with
    | ok ents => exact Or.inl ⟨rfl, by simp⟩
    | error e =>
      refine Or.inr ⟨e, rfl, ?_, ?_⟩
      · cases e <;> simp [classify, stateOfClass]
      · simp

theorem exceptBind_error {α β : Type} (e : PyError) (f : α → Except PyError β) :
    (Except.error e : Except PyError α) >>= f = Except.error e := rfl

theorem exceptBind_ok {α β : Type} (a : α) (f : α → Except PyError β) :
    (Except.ok a : Except PyError α) >>= f = f a := rfl

/-- A metric source that binds `metric_matrix` to a ragged list: row lengths
2 and 1, with two declared coordinates. -/
def raggedInput : CalcInput :=
  { coordsStr := "t, r"
    symbolsStr := ""
    metricSrcText := "metric_matrix = [[1, 0], [0]]"
    metricStmts := [.assign "metric_matrix"
      (listOf [listOf [.num 1, .num 0], listOf [.num 0]])] }

/-- The value the ragged source binds. -/
def raggedVal : PyVal :=
  .listVal [.listVal [.expr (.const (fInt 1)), .expr (.const (fInt 0))],
            .listVal [.expr (.const (fInt 0))]]

/-- C6 counterexample: on the ragged source the evaluation succeeds and binds
`metric_matrix` (so the designated variable is not missing), the bound value
is a list (so it is not of the wrong type), and no matrix is ever produced
whose shape could be compared — yet resolution fails (the `sp.Matrix`
conversion raises) and the run ends Failed: a fourth failure case outside the
three the claim enumerates.  The failure behaviour itself matches the claim:
the run fails before the inverse-metric stage with a diagnostic carrying the
offending source text. -/
theorem metric_resolution_counterexample :
    execStmts (metricLocals .tono ["t", "r"] [0, 1] []) raggedInput.metricStmts =
      .ok (bindVar (metricLocals .tono ["t", "r"] [0, 1] []) "metric_matrix" raggedVal) ∧
    lookupEnv (bindVar (metricLocals .tono ["t", "r"] [0, 1] []) "metric_matrix" raggedVal)
      "metric_matrix" = some raggedVal ∧
    resolveMetric (metricLocals .tono ["t", "r"] [0, 1] []) raggedInput.metricStmts 2 =
      .error (.valueErr "mismatched dimensions in matrix rows") ∧
    (performCalc .tono raggedInput trueSched).state = .failed ∧
    (performCalc .tono raggedInput trueSched).records.getLast? =
      some (.diagnostic .inputOrCalcError (.synErr raggedInput.metricSrcText .valueCause)) ∧
    OutRec.header .inverseMetric ∉ (performCalc .tono raggedInput trueSched).records := by
  refine ⟨rfl, rfl, rfl, by decide, by decide, by decide⟩

/-- C6 amended: metric resolution fails in exactly these cases — the
evaluation of the source raises an error; the evaluated code does not bind
`metric_matrix`; the bound value is neither a matrix nor a list convertible to
one (rectangular expression rows or a flat expression list); or the resulting
matrix's shape differs from `(n, n)` — and any resolution failure terminates
the run as Failed before the inverse-metric stage, with a final diagnostic
carrying the offending source text and the cause class. -/
theorem metric_resolution_amended
    (l0 : Env) (stmts : List PyStmt) (n : ℕ)
    (variant : Variant) (inp : CalcInput) (sched : Sched)
    (names : List String) (ids : List ℕ) (tbl : SymTable) (e : PyError)
    (hc : parseCoordinates inp.coordsStr = .ok (names, ids, tbl))
    (hm : resolveMetric (metricLocals variant names ids (parseSymbols inp.symbolsStr tbl).1)
      inp.metricStmts names.length = .error e) :
    exceptOk (resolveMetric l0 stmts n) = resolveSpecOk l0 stmts n ∧
    (performCalc variant inp sched).state = .failed ∧
    (performCalc variant inp sched).records.getLast? =
      some (.diagnostic .inputOrCalcError (.synErr inp.metricSrcText (causeOf e))) ∧
    OutRec.header .inverseMetric ∉ (performCalc variant inp sched).records := by
  have hlist : ∀ xs : List PyVal,
      claimedMatrix (.listVal xs) =
        match spMatrixOfList xs with
        | .ok rows => some rows
        | .error _ => none := by
    intro xs
    unfold claimedMatrix spMatrixOfList
    cases hrow : mapO asExprRow xs with
    | some rows =>
      simp only [hrow]
      by_cases h : rowsRectangular rows <;> simp [h]
    | none =>
      simp only [hrow]
      cases hcol : mapO asExprElem xs <;> simp [hcol]
  have hchar : exceptOk (resolveMetric l0 stmts n) = resolveSpecOk l0 stmts n := by
    unfold resolveMetric resolveSpecOk
    cases hex : execStmts l0 stmts with
    | error e0 => simp [exceptBind_error, exceptOk]
    | ok env =>
      simp only [exceptBind_ok]
      cases hlk : lookupEnv env "metric_matrix" with
      | none => simp [exceptOk]
      | some mv =>
        cases mv with
        | expr e0 => simp [exceptOk, claimedMatrix, exceptBind_error]
        | module => simp [exceptOk, claimedMatrix, exceptBind_error]
        | matrixVal rows =>
          simp only [claimedMatrix, exceptBind_ok]
          by_cases hs : matShape rows = (n, n) <;> simp [hs, exceptOk]
        | listVal xs =>
          dsimp only
          rw [hlist]
          cases hsm : spMatrixOfList xs with
          | error e1 => simp [exceptBind_error, exceptOk]
          | ok rows =>
            simp only [exceptBind_ok]
            by_cases hs : matShape rows = (n, n) <;> simp [hs, exceptOk]
  have hrun : ∃ recs0 : List OutRec,
      performCalc variant inp sched =
        ⟨.failed, recs0 ++ [.diagnostic .inputOrCalcError
          (.synErr inp.metricSrcText (causeOf e))], none⟩ ∧
      OutRec.header .inverseMetric ∉ recs0 := by
    cases variant with
    | tcg =>
      refine ⟨[.header .inputCoords, .stageNote .inputCoords [names.length],
        .header .inputSymbols,
        .stageNote .inputSymbols [(parseSymbols inp.symbolsStr tbl).1.length],
        .header .inputMetric], ?_, by simp⟩
      simp only [performCalc, tryBody, hc]
      simp only [doEmit, initSt]
      rw [hm]
      simp [classify, stateOfClass]
    | tono =>
      refine ⟨[.stageNote .inputCoords [names.length],
        .stageNote .inputSymbols [(parseSymbols inp.symbolsStr tbl).1.length],
        .header .inputMetric], ?_, by simp⟩
      simp only [performCalc, tryBody, hc]
      simp only [doEmit, initSt]
      rw [hm]
      simp [classify, stateOfClass]
  obtain ⟨recs0, hr, hmem⟩ := hrun
  refine ⟨hchar, by rw [hr], by rw [hr]; simp, ?_⟩
  rw [hr]
  simp only [List.mem_append, List.mem_singleton]
  rintro (h | h)
  · exact hmem h
  · exact absurd h (by simp)

/-- Witness for `metric_resolution_amended` at the ragged input. -/
theorem metric_resolution_amended_witness :
    exceptOk (resolveMetric [] [] 0) = resolveSpecOk [] [] 0 ∧
    (performCalc .tono raggedInput trueSched).state = .failed ∧
    (performCalc .tono raggedInput trueSched).records.getLast? =
      some (.diagnostic .inputOrCalcError (.synErr raggedInput.metricSrcText
        (causeOf (.valueErr "mismatched dimensions in matrix rows")))) ∧
    OutRec.header .inverseMetric ∉ (performCalc .tono raggedInput trueSched).records :=
  metric_resolution_amended [] [] 0 .tono raggedInput trueSched ["t", "r"] [0, 1]
    [("t", false), ("r", false)] (.valueErr "mismatched dimensions in matrix rows")
    rfl rfl

/-!
## Comment stripping of the metric source (C9)

Before the metric code is executed, both files run
(`tensor_calculator_gui.py` lines 473-479, `tono_gui.py` lines 434-440):
every line of `metric_def_str` is cut at `line.split("#", 1)[0]` — the prefix
before the first `#`, with no awareness of string literals — stripped, and
dropped when empty; the survivors are rejoined with newlines.  Text is
modelled as character lists.
-/

/-- `line.split("#", 1)[0]`: the prefix of the line before its first `#`. -/
def takeBeforeHash (line : List Char) : List Char :=
  line.takeWhile (fun c => c ≠ '#')

/-- The comment-stripping loop: for each line of `splitlines()`, keep
`line.split("#", 1)[0].strip()` when nonempty, then `"\n".join(...)`. -/
def stripMetricComments (src : List Char) : List Char :=
  let lines := splitOnCharL '\n' src
  let kept := lines.foldl (fun acc line =>
    let stripped := trimL (takeBeforeHash line)
    if stripped ≠ [] then acc ++ [stripped] else acc) []
  List.intercalate ['\n'] kept

/-- What the claim says one line becomes: the text before the first `#`,
stripped, or nothing when that is blank. -/
def stripSpecLine (line : List Char) : Option (List Char) :=
  let t := trimL (line.takeWhile (fun c => c ≠ '#'))
  if t = [] then none else some t

/-- The claimed characterization of the whole transformation. -/
def stripSpec (src : List Char) : List Char :=
  List.intercalate ['\n'] ((splitOnCharL '\n' src).filterMap stripSpecLine)

theorem foldl_keep_eq_filterMap (g : List Char → List Char) :
    ∀ (lines : List (List Char)) (acc : List (List Char)),
      lines.foldl (fun acc line =>
        if g line ≠ [] then acc ++ [g line] else acc) acc =
      acc ++ lines.filterMap (fun line =>
        if g line = [] then none else some (g line))
  | [], acc => by simp
  | line :: rest, acc => by
    by_cases h : g line = []
    · simp only [List.foldl_cons, List.filterMap_cons, h, ne_eq, not_true_eq_false,
        if_false, ite_true, if_true]
      exact foldl_keep_eq_filterMap g rest acc
    · simp only [List.foldl_cons, List.filterMap_cons, h, ne_eq, not_false_eq_true,
        if_true, if_false, ite_false]
      rw [foldl_keep_eq_filterMap g rest (acc ++ [g line])]
      simp

/-- C9: the pre-execution transformation of the metric source is exactly:
every line is cut at its first `#` (whatever its context, a string literal
included) and stripped, blank results are discarded, and the kept lines are
rejoined — stated as the `filterMap` characterization, the behaviour on any
line of the shape `pre ++ "#" ++ post` with no `#` in `pre`, and a concrete
line whose `#` sits inside a Python string literal. -/
theorem comment_stripping_unconditional :
    (∀ src : List Char, stripMetricComments src = stripSpec src) ∧
    (∀ pre post : List Char, pre.all (fun c => c ≠ '#') = true →
      takeBeforeHash (pre ++ '#' :: post) = pre) ∧
    stripMetricComments ("s = \x22a#b\x22 * 2".data) = ("s = \x22a".data) := by
  refine ⟨fun src => ?_, fun pre post h => ?_, by decide⟩
  · show List.intercalate ['\n'] ((splitOnCharL '\n' src).foldl (fun acc line =>
        if trimL (takeBeforeHash line) ≠ [] then acc ++ [trimL (takeBeforeHash line)]
        else acc) []) = _
    rw [foldl_keep_eq_filterMap (fun line => trimL (takeBeforeHash line))]
    simp only [List.nil_append]
    rfl
  · induction pre with
    | nil => simp [takeBeforeHash, List.takeWhile]
    | cons c rest ih =>
      simp only [List.all_cons, Bool.and_eq_true] at h
      simp only [takeBeforeHash, List.cons_append, List.takeWhile_cons, h.1, if_pos]
      exact congrArg (c :: ·) (ih h.2)

/-!
## The exec namespaces (C10)
-/

/-- C10 counterexample: in `tono_gui.py` the locals dict handed to `exec`
additionally binds the name `sp` to the symbolic-algebra module before any
coordinate or parameter is added (line 380), so it does not contain only the
coordinate symbols, parameter symbols and code-created bindings; in
`tensor_calculator_gui.py` it does not contain `sp`. -/
theorem exec_locals_counterexample :
    lookupEnv (metricLocals .tono ["t"] [0] []) "sp" = some PyVal.module ∧
    (["t"].contains "sp") = false ∧
    lookupEnv (metricLocals .tcg ["t"] [0] []) "sp" = none :=
  ⟨rfl, rfl, rfl⟩

/-- A metric source whose only statement evaluates a single name, as a probe
for the builtin lookup path. -/
def builtinProbeInput (bname : String) : CalcInput :=
  { coordsStr := "t"
    symbolsStr := ""
    metricSrcText := "print(x)"
    metricStmts := [.exprStmt (.name bname)] }

/-- C10 amended: the metric code executes against globals
`{sp: sp, builtins: {}}` and a locals dict of the coordinate and parameter
symbols (plus, in `tono_gui.py`, `sp`); any reference to a name bound in
neither — every Python builtin such as `print`, `open`, `__import__` —
raises `NameError` inside `exec`, the metric block wraps it into the failure
diagnostic, and the run ends Failed without executing the builtin. -/
theorem builtins_unreachable (variant : Variant) (bname : String) (sched : Sched)
    (h1 : bname ≠ "t") (h2 : bname ≠ "sp") :
    (performCalc variant (builtinProbeInput bname) sched).state = .failed ∧
    (performCalc variant (builtinProbeInput bname) sched).records.getLast? =
      some (.diagnostic .inputOrCalcError (.synErr "print(x)" .nameCause)) := by
  have h1' : ("t" = bname) = False := eq_false fun hh => h1 hh.symm
  have h2' : (bname = "sp") = False := eq_false h2
  have h3' : ("sp" = bname) = False := eq_false fun hh => h2 hh.symm
  have hbe : ∀ {α β : Type} (e : PyError) (f : α → Except PyError β),
      (Except.error e : Except PyError α) >>= f = Except.error e := fun _ _ => rfl
  have hbo : ∀ {α β : Type} (a : α) (f : α → Except PyError β),
      (Except.ok a : Except PyError α) >>= f = f a := fun _ _ => rfl
  cases variant <;>
    simp [performCalc, tryBody, builtinProbeInput, parseCoordinates, splitAndStrip,
      splitOnCharL, trimL, internAll, internSym, parseSymbols, metricLocals, bindVar,
      resolveMetric, execStmts, evalPyExpr, resolveName, lookupEnv, h1', h2', h3',
      causeOf, classify, stateOfClass, doEmit, initSt, hbe, hbo]

/-- Witness for `builtins_unreachable` at the builtin `print`. -/
theorem builtins_unreachable_witness :
    (performCalc .tono (builtinProbeInput "print") trueSched).state = .failed ∧
    (performCalc .tono (builtinProbeInput "print") trueSched).records.getLast? =
      some (.diagnostic .inputOrCalcError (.synErr "print(x)" .nameCause)) :=
  builtins_unreachable .tono "print" trueSched (by decide) (by decide)

end GRCalc
